import Mathlib

/-!
Foot touchpad: the per-frame pipeline of `Application::processFrame`

Shallow embedding of `src/02_foot_touchpad/Application.cpp`.

* 8-bit and 16-bit samples are natural numbers; every arithmetic step applies
  the saturating cast the OpenCV element type performs.
* An image (`cv::Mat`, one channel) is a list of rows of samples.
* `double` areas are rationals: the selection loop only compares them, and on
  finite values the comparison of doubles is the comparison of rationals.
* OpenCV routines whose result depends on floating-point scaling or on the
  geometry of the image (`convertTo`, `findContours`, `contourArea`,
  `fitEllipse`, `circle`) are fields of `CvLib`, the library the program is
  linked against.  The element-wise routines (`absdiff`, `*=`, `threshold`)
  are written out.
-/

namespace FootTouchpad

/-! ## Images -/

/-- One-channel image: a list of rows, each a list of samples. -/
abbrev Mat := List (List Nat)

namespace Mat

/-- Apply a function to every sample. -/
def mapPx (f : Nat → Nat) (m : Mat) : Mat := m.map (List.map f)

/-- Combine two images sample by sample. -/
def zipPx (f : Nat → Nat → Nat) (a b : Mat) : Mat := List.zipWith (List.zipWith f) a b

/-- Both images have the same number of rows and the same row lengths. -/
def sameSize (a b : Mat) : Bool := a.map List.length == b.map List.length

/-- Every sample is zero. -/
def allZero (m : Mat) : Prop := ∀ row ∈ m, ∀ v ∈ row, v = 0

instance (m : Mat) : Decidable (allZero m) := by
  unfold allZero; infer_instance

/-- The image of the given size filled with zeros. -/
def zeros (rows cols : Nat) : Mat := List.replicate rows (List.replicate cols 0)

end Mat

/-! ## Element-wise OpenCV arithmetic on 8-bit and 16-bit samples -/

/-- The cast `saturate_cast<uchar>`: clamp an integer into `0..255`. -/
def saturateU8 (x : Int) : Nat := if x < 0 then 0 else if x > 255 then 255 else x.toNat

/-- The cast `saturate_cast<ushort>`: clamp an integer into `0..65535`. -/
def saturateU16 (x : Int) : Nat := if x < 0 then 0 else if x > 65535 then 65535 else x.toNat

/-- One sample of `cv::absdiff` on 8-bit images: `saturate_cast<uchar>(|a - b|)`. -/
def absdiffPx (a b : Nat) : Nat := saturateU8 (Int.natAbs ((a : Int) - (b : Int)))

/-- One sample of `m *= k` on an 8-bit image: `saturate_cast<uchar>(k * v)`. -/
def scalePx (k v : Nat) : Nat := saturateU8 ((k : Int) * (v : Int))

/-- One sample of `m *= k` on a 16-bit image: `saturate_cast<ushort>(k * v)`. -/
def scalePx16 (k v : Nat) : Nat := saturateU16 ((k : Int) * (v : Int))

/-- One sample of `cv::threshold` with type 3 (`THRESH_TOZERO`):
the sample is kept when it is greater than `thresh`, otherwise it becomes 0. -/
def threshToZeroPx (thresh : Int) (v : Nat) : Nat := if (v : Int) > thresh then v else 0

/-- One sample of `cv::threshold` with type 4 (`THRESH_TOZERO_INV`):
the sample becomes 0 when it is greater than `thresh`, otherwise it is kept. -/
def threshToZeroInvPx (thresh : Int) (v : Nat) : Nat := if (v : Int) > thresh then 0 else v

/-- The two thresholds of lines 61-62 on one sample: type 4 at `upper`, then type 3 at `lower`. -/
def bandPx (lower upper : Int) (v : Nat) : Nat := threshToZeroPx lower (threshToZeroInvPx upper v)

/-- The constant `thresh_upper` of line 59. -/
def thresh_upper : Int := 50

/-- The constant `thresh_lower` of line 60. -/
def thresh_lower : Int := 10

/-- Lines 52-62 on one sample: `absdiff` against the baseline sample `b`, `*= 2`,
threshold type 4 at `thresh_upper`, threshold type 3 at `thresh_lower`. -/
def pipelinePx (b c : Nat) : Nat := bandPx thresh_lower thresh_upper (scalePx 2 (absdiffPx b c))

/-- The routine `cv::absdiff(a, b, dst)` on whole images of equal size. -/
def absdiff (a b : Mat) : Mat := Mat.zipPx absdiffPx a b

/-- The statement `m *= k` on an 8-bit image. -/
def scale (k : Nat) (m : Mat) : Mat := Mat.mapPx (scalePx k) m

/-- The call `cv::threshold(m, m, thresh, 0, 3)`. -/
def threshToZero (thresh : Int) (m : Mat) : Mat := Mat.mapPx (threshToZeroPx thresh) m

/-- The call `cv::threshold(m, m, thresh, 0, 4)`. -/
def threshToZeroInv (thresh : Int) (m : Mat) : Mat := Mat.mapPx (threshToZeroInvPx thresh) m

/-- Lines 61-62 on a whole image with arbitrary bounds: upper cut first, then lower cut. -/
def bandPass (lower upper : Int) (m : Mat) : Mat := threshToZero lower (threshToZeroInv upper m)

/-! ## Contours and the library routines taken as given -/

/-- The type `cv::Point`: integer pixel coordinates. -/
structure Point where
  x : Int
  y : Int
  deriving DecidableEq, Repr

/-- A contour `std::vector<cv::Point>`: the boundary points of one region. -/
abbrev Contour := List Point

/-- The type `cv::Point2f`; the float coordinates are rationals. -/
structure Point2f where
  x : ℚ
  y : ℚ
  deriving DecidableEq

/-- The type `cv::RotatedRect` returned by `cv::fitEllipse`. -/
structure RotatedRect where
  center : Point2f
  width : ℚ
  height : ℚ
  angle : ℚ

/-- The OpenCV routines `processFrame` calls whose results depend on floating-point
scaling or on image geometry.  They are not part of the repository; the pipeline is
stated for an arbitrary instance. -/
structure CvLib where
  /-- One sample of `convertTo(m, CV_8UC1, 0.006, 0)`: 16-bit sample to 8-bit sample. -/
  convertTo8U : Nat → Nat
  /-- The call `cv::findContours(img, contours, CV_RETR_EXTERNAL, CV_CHAIN_APPROX_NONE)`:
  the image as the routine leaves it, and the contours found. -/
  findContours : Mat → Mat × List Contour
  /-- The call `cv::contourArea(contour)`. -/
  contourArea : Contour → ℚ
  /-- The call `cv::fitEllipse(contour)`. -/
  fitEllipse : Contour → RotatedRect
  /-- The call `circle(img, center, radius, cv::Scalar(100,150,200,0), 2)`. -/
  circle : Mat → Point2f → Nat → Mat

/-! ## Selection of the biggest contour (lines 89-110) -/

/-- The locals `maxContourSize` and `maxContourIndex`. -/
structure Selection where
  maxContourSize : ℚ
  maxContourIndex : Int
  deriving DecidableEq

/-- The values of lines 89 and 91 before the loop. -/
def Selection.init : Selection := { maxContourSize := 0, maxContourIndex := -1 }

/-- The loop body of lines 100-107 for the contour `c` at index `i`. -/
def selectStep (area : Contour → ℚ) (s : Selection) (i : Nat) (c : Contour) : Selection :=
  let currContourSize := area c
  if currContourSize > s.maxContourSize then
    { maxContourSize := currContourSize, maxContourIndex := (i : Int) }
  else s

/-- The loop of line 98 over the contours that remain, the first of them having index `i`. -/
def selectFrom (area : Contour → ℚ) : List Contour → Nat → Selection → Selection
  | [], _, s => s
  | c :: cs, i, s => selectFrom area cs (i + 1) (selectStep area s i c)

/-- Lines 89-110: the guarded selection loop. -/
def selectMax (area : Contour → ℚ) (contours : List Contour) : Selection :=
  if contours.length > 0 then selectFrom area contours 0 Selection.init else Selection.init

/-! ## Touch estimation (lines 113-130) -/

/-- What lines 113-130 leave behind: the working image, the contour handed to
`cv::fitEllipse` (if the call was made) and the centre of the circle drawn (if any). -/
structure Touch where
  working : Mat
  fitted : Option Contour
  marker : Option Point2f

/-- Lines 113-130.  The index produced by the loop is always in range; an index out of
range (not reachable) draws nothing. -/
def touchStage (cv : CvLib) (working : Mat) (contours : List Contour) (maxContourIndex : Int) :
    Touch :=
  if maxContourIndex ≥ 0 then
    match contours[maxContourIndex.toNat]? with
    | some maxContour =>
      if maxContour.length > 100 then
        let foot := cv.fitEllipse maxContour
        { working := cv.circle working foot.center 20
          fitted := some maxContour
          marker := some foot.center }
      else { working := working, fitted := none, marker := none }
    | none => { working := working, fitted := none, marker := none }
  else { working := working, fitted := none, marker := none }

/-! ## The application state and `processFrame` -/

/-- The members of `Application` that `processFrame` reads or writes. -/
structure Application where
  m_depthImage : Mat
  m_working : Mat
  m_base : Mat
  m_outputImage : Mat
  initialized : Bool

/-- The constructor `Application::Application` (lines 141-167) on the path where the camera opens.  The buffers of
lines 162-163 are allocated without being filled, so their contents are arguments;
`m_working` and `m_base` start as empty images. -/
def Application.ctor (depthBuffer outputBuffer : Mat) : Application :=
  { m_depthImage := depthBuffer
    m_working := []
    m_base := []
    m_outputImage := outputBuffer
    initialized := false }

/-- Line 37: `m_depthImage *= 32` on the 16-bit depth image. -/
def brightenedDepth (s : Application) : Mat := Mat.mapPx (scalePx16 32) s.m_depthImage

/-- Lines 37-42: the 8-bit image converted from the brightened depth image. -/
def convertedFrame (cv : CvLib) (s : Application) : Mat :=
  Mat.mapPx cv.convertTo8U (brightenedDepth s)

/-- Lines 44-49: the baseline used for this frame, stored from the converted frame when
`initialized` is not set. -/
def baseline (cv : CvLib) (s : Application) : Mat :=
  if !s.initialized then convertedFrame cv s else s.m_base

/-- Lines 52-62: `m_working` after the subtraction, the gain and the two thresholds. -/
def suppressedFrame (cv : CvLib) (s : Application) : Mat :=
  bandPass thresh_lower thresh_upper (scale 2 (absdiff (baseline cv s) (convertedFrame cv s)))

/-- One call of `processFrame`: the state it leaves and what it did. -/
structure FrameResult where
  /-- The members after the call. -/
  app : Application
  /-- Whether `cv::absdiff` raised its size-mismatch error, which abandons the call.
  An operand of a single sample, which the routine would read as a scalar, is not
  treated apart: the camera delivers 480 x 640 frames. -/
  threw : Bool
  /-- The contours found at line 85. -/
  contours : List Contour
  /-- The locals of the selection loop after line 110. -/
  selection : Selection
  /-- The contour handed to `cv::fitEllipse`, if the call was made. -/
  fitted : Option Contour
  /-- The centre of the circle drawn at line 126, if any. -/
  marker : Option Point2f

/-- The method `Application::processFrame` (lines 21-137).  When the sizes of the baseline
and the converted frame differ, `cv::absdiff` raises an error at line 52 and the members
stay as lines 37-49 left them. -/
def processFrame (cv : CvLib) (s : Application) : FrameResult :=
  let depth := brightenedDepth s
  let working := convertedFrame cv s
  let base := baseline cv s
  if !(Mat.sameSize base working) then
    { app := { s with m_depthImage := depth, m_working := working, m_base := base,
                      initialized := true }
      threw := true
      contours := []
      selection := Selection.init
      fitted := none
      marker := none }
  else
    let found := cv.findContours (suppressedFrame cv s)
    let contours := found.2
    let selection := selectMax cv.contourArea contours
    let touch := touchStage cv found.1 contours selection.maxContourIndex
    { app := { m_depthImage := depth
               m_working := touch.working
               m_base := base
               m_outputImage := touch.working
               initialized := true }
      threw := false
      contours := contours
      selection := selection
      fitted := touch.fitted
      marker := touch.marker }

/-- One pass of `Application::loop`: the camera fills `m_depthImage` (line 199) and
`processFrame` runs (line 202).  The key handling of lines 182-196 touches neither
`m_base` nor `initialized`, and `processFrame` overwrites the output image. -/
def Application.loop (cv : CvLib) (s : Application) (frame : Mat) : FrameResult :=
  processFrame cv { s with m_depthImage := frame }

/-- Successive passes of `loop` over the frames the camera delivers; an error raised by
`cv::absdiff` ends the run. -/
def run (cv : CvLib) : Application → List Mat → Application
  | s, [] => s
  | s, frame :: frames =>
    let r := Application.loop cv s frame
    if r.threw then r.app else run cv r.app frames

/-! ## Scenario frames and a small library instance -/

/-- An image of the given size whose samples are `v` on the filled disc of radius `r`
around column `cx`, row `cy`, and 0 elsewhere. -/
def discFrame (rows cols : Nat) (cx cy : Int) (r : Nat) (v : Nat) : Mat :=
  (List.range rows).map fun (y : Nat) => (List.range cols).map fun (x : Nat) =>
    if ((x : Int) - cx) ^ 2 + ((y : Int) - cy) ^ 2 ≤ (r : Int) ^ 2 then v else 0

/-- The signed sum `cv::contourArea` accumulates: over consecutive points `prev`, `p`,
the terms `prev.x * p.y - prev.y * p.x`. -/
def crossSum : Point → Contour → Int
  | _, [] => 0
  | prev, p :: ps => prev.x * p.y - prev.y * p.x + crossSum p ps

/-- The routine `cv::contourArea` on integer points, not oriented: half the absolute
value of the cross sum that starts from the last point; 0 for the empty contour. -/
def polygonArea (c : Contour) : ℚ :=
  match c.getLast? with
  | none => 0
  | some last => (Int.natAbs (crossSum last c) : ℚ) / 2

/-- The points of the non-zero samples of row `y`, from column `x` on. -/
def rowPoints (y : Nat) : Nat → List Nat → Contour
  | _, [] => []
  | x, v :: vs =>
    if v ≠ 0 then ({ x := x, y := y } : Point) :: rowPoints y (x + 1) vs
    else rowPoints y (x + 1) vs

/-- The points of the non-zero samples of the rows of an image, from row `y` on. -/
def matPoints : Nat → Mat → Contour
  | _, [] => []
  | y, row :: rows => rowPoints y 0 row ++ matPoints (y + 1) rows

/-- The points of the non-zero samples of an image, row by row. -/
def nonZeroPoints (m : Mat) : Contour := matPoints 0 m

/-- Write the value `v` at column `x` of row `y`; an image without that sample is left as
it is. -/
def markPx (m : Mat) (x y v : Nat) : Mat := m.set y ((m.getD y []).set x v)

/-- A small library instance for evaluating the pipeline on concrete frames: samples are
converted by `v * 6 / 1000`, the non-zero samples of an image form one contour, areas are
polygon areas, the fitted centre is the first point, and drawing a circle writes 100 (the
first channel of the colour) at its centre. -/
def sampleCv : CvLib :=
  { convertTo8U := fun v => saturateU8 ((v : Int) * 6 / 1000)
    findContours := fun m => (m, if (nonZeroPoints m).isEmpty then [] else [nonZeroPoints m])
    contourArea := polygonArea
    fitEllipse := fun c =>
      { center := { x := (c.headD ⟨0, 0⟩).x, y := (c.headD ⟨0, 0⟩).y }
        width := 0, height := 0, angle := 0 }
    circle := fun m center _ => markPx m (Rat.floor center.x).toNat (Rat.floor center.y).toNat 100 }

/-- A calibrated state with an all-zero 2 x 2 baseline whose depth image converts, with
`sampleCv`, to 15 on three samples and 0 on the fourth. -/
def calibratedSample : Application :=
  { m_depthImage := [[80, 80], [80, 0]]
    m_working := []
    m_base := [[0, 0], [0, 0]]
    m_outputImage := []
    initialized := true }

/-- A calibrated state with the all-zero 480 x 640 baseline whose depth image converts, with
`sampleCv`, to 30 on the disc of radius 50 around (320, 240) and 0 elsewhere. -/
def discSample : Application :=
  { m_depthImage := discFrame 480 640 320 240 50 157
    m_working := []
    m_base := Mat.zeros 480 640
    m_outputImage := []
    initialized := true }

/-- A calibrated state with the all-zero 2 x 101 baseline whose depth image converts, with
`sampleCv`, to 15 on the 101 samples of the first row and the first sample of the second. -/
def footSample : Application :=
  { m_depthImage := [List.replicate 101 80, 80 :: List.replicate 100 0]
    m_working := []
    m_base := Mat.zeros 2 101
    m_outputImage := []
    initialized := true }

/-- The contour `sampleCv` finds in the frame of `footSample`: 102 points. -/
def footContour : Contour :=
  (List.range 101).map (fun (x : Nat) => ({ x := x, y := 0 } : Point)) ++ [⟨0, 1⟩]

end FootTouchpad

namespace FootTouchpad

/-! ## Lemmas on samples -/

theorem saturateU8_le (x : Int) : saturateU8 x ≤ 255 := by
  unfold saturateU8
  split_ifs <;> omega

theorem absdiffPx_self (a : Nat) : absdiffPx a a = 0 := by
  simp [absdiffPx, saturateU8]

theorem scalePx_zero (k : Nat) : scalePx k 0 = 0 := by
  simp [scalePx, saturateU8]

theorem threshToZeroPx_zero (t : Int) : threshToZeroPx t 0 = 0 := by
  simp [threshToZeroPx]

theorem threshToZeroInvPx_zero (t : Int) : threshToZeroInvPx t 0 = 0 := by
  simp [threshToZeroInvPx]

theorem bandPx_zero (lower upper : Int) : bandPx lower upper 0 = 0 := by
  simp [bandPx, threshToZeroPx_zero, threshToZeroInvPx_zero]

theorem bandPx_eq_zero_or_self (lower upper : Int) (v : Nat) :
    bandPx lower upper v = 0 ∨ bandPx lower upper v = v := by
  unfold bandPx threshToZeroPx threshToZeroInvPx
  split_ifs <;> simp

theorem bandPx_idem (lower upper : Int) (v : Nat) :
    bandPx lower upper (bandPx lower upper v) = bandPx lower upper v := by
  rcases bandPx_eq_zero_or_self lower upper v with h | h
  · rw [h, bandPx_zero]
  · have key : ∀ w, bandPx lower upper v = w → w = v → bandPx lower upper w = w := by
      intro w h1 h2
      subst h2
      exact h1
    exact key _ rfl h

theorem pipelinePx_self (a : Nat) : pipelinePx a a = 0 := by
  simp [pipelinePx, absdiffPx_self, scalePx_zero, bandPx_zero]

/-! ## Lemmas on images -/

theorem Mat.mapPx_mapPx (f g : Nat → Nat) (m : Mat) :
    Mat.mapPx f (Mat.mapPx g m) = Mat.mapPx (fun v => f (g v)) m := by
  simp [Mat.mapPx, List.map_map, Function.comp_def]

theorem Mat.allZero_mapPx (f : Nat → Nat) (m : Mat)
    (h : ∀ row ∈ m, ∀ v ∈ row, f v = 0) : Mat.allZero (Mat.mapPx f m) := by
  intro row hrow v hv
  simp only [Mat.mapPx, List.mem_map] at hrow
  obtain ⟨row0, hrow0, rfl⟩ := hrow
  simp only [List.mem_map] at hv
  obtain ⟨v0, hv0, rfl⟩ := hv
  exact h row0 hrow0 v0 hv0

theorem Mat.allZero_mapPx_of_allZero (f : Nat → Nat) (hf : f 0 = 0) (m : Mat)
    (h : Mat.allZero m) : Mat.allZero (Mat.mapPx f m) := by
  apply Mat.allZero_mapPx
  intro row hrow v hv
  rw [h row hrow v hv, hf]

theorem zipWith_same {α β : Type} (f : α → α → β) (l : List α) :
    List.zipWith f l l = l.map (fun a => f a a) := by
  induction l with
  | nil => rfl
  | cons a l ih => simp [ih]

theorem Mat.zipPx_self (f : Nat → Nat → Nat) (m : Mat) :
    Mat.zipPx f m m = Mat.mapPx (fun v => f v v) m := by
  simp [Mat.zipPx, Mat.mapPx, zipWith_same]

theorem Mat.sameSize_self (m : Mat) : Mat.sameSize m m = true := by
  simp [Mat.sameSize]

theorem Mat.allZero_zeros (rows cols : Nat) : Mat.allZero (Mat.zeros rows cols) := by
  intro row hrow v hv
  rw [Mat.zeros, List.mem_replicate] at hrow
  rw [hrow.2, List.mem_replicate] at hv
  exact hv.2

theorem bandPass_eq_mapPx (lower upper : Int) (m : Mat) :
    bandPass lower upper m = Mat.mapPx (bandPx lower upper) m := by
  simp only [bandPass, threshToZero, threshToZeroInv, Mat.mapPx_mapPx]
  rfl

theorem absdiff_self_allZero (m : Mat) : Mat.allZero (absdiff m m) := by
  rw [absdiff, Mat.zipPx_self]
  apply Mat.allZero_mapPx
  intro _ _ v _
  exact absdiffPx_self v

theorem suppress_allZero (m : Mat) (h : Mat.allZero m) :
    Mat.allZero (bandPass thresh_lower thresh_upper (scale 2 m)) := by
  rw [bandPass_eq_mapPx]
  apply Mat.allZero_mapPx_of_allZero _ (bandPx_zero _ _)
  exact Mat.allZero_mapPx_of_allZero _ (scalePx_zero 2) m h

/-! ## Selection loop: the invariant -/

/-- What the loop of line 98 establishes when it runs over `cs` from index `i` in state `s`:
either no contour of `cs` beats `s.maxContourSize` and the state is returned as it was, or
the state names the first contour of `cs` whose area is the largest, and that area beats
`s.maxContourSize`. -/
theorem selectFrom_spec (area : Contour → ℚ) (cs : List Contour) (i : Nat) (s : Selection) :
    (selectFrom area cs i s = s ∧ ∀ c ∈ cs, area c ≤ s.maxContourSize) ∨
    (∃ (j : Nat) (c : Contour), cs[j]? = some c ∧
      selectFrom area cs i s = { maxContourSize := area c, maxContourIndex := ((i + j : Nat) : Int) } ∧
      s.maxContourSize < area c ∧
      (∀ c' ∈ cs, area c' ≤ area c) ∧
      (∀ (j' : Nat) (c' : Contour), j' < j → cs[j']? = some c' → area c' < area c)) := by
  induction cs generalizing i s with
  | nil => left; simp [selectFrom]
  | cons c cs ih =>
    rw [selectFrom]
    by_cases hc : area c > s.maxContourSize
    · have hstep : selectStep area s i c =
          { maxContourSize := area c, maxContourIndex := (i : Int) } := by
        simp [selectStep, hc]
      rw [hstep]
      rcases ih (i + 1) { maxContourSize := area c, maxContourIndex := (i : Int) } with
        ⟨heq, hle⟩ | ⟨j, d, hj, heq, hlt, hmax, hfirst⟩
      · right
        refine ⟨0, c, by simp, ?_, hc, ?_, ?_⟩
        · rw [heq]; simp
        · intro c' hc'
          rcases List.mem_cons.mp hc' with rfl | hmem
          · exact le_refl _
          · exact hle c' hmem
        · intro j' c' hj' _
          omega
      · right
        refine ⟨j + 1, d, by simpa using hj, ?_, ?_, ?_, ?_⟩
        · rw [heq]
          congr 2
          omega
        · exact lt_trans hc hlt
        · intro c' hc'
          rcases List.mem_cons.mp hc' with rfl | hmem
          · exact le_of_lt hlt
          · exact hmax c' hmem
        · intro j' c' hj' hget
          cases j' with
          | zero =>
            simp at hget
            subst hget
            exact hlt
          | succ j' =>
            simp at hget
            exact hfirst j' c' (by omega) hget
    · have hstep : selectStep area s i c = s := by
        simp [selectStep, hc]
      rw [hstep]
      have hcle : area c ≤ s.maxContourSize := not_lt.mp hc
      rcases ih (i + 1) s with ⟨heq, hle⟩ | ⟨j, d, hj, heq, hlt, hmax, hfirst⟩
      · left
        refine ⟨heq, ?_⟩
        intro c' hc'
        rcases List.mem_cons.mp hc' with rfl | hmem
        · exact hcle
        · exact hle c' hmem
      · right
        refine ⟨j + 1, d, by simpa using hj, ?_, hlt, ?_, ?_⟩
        · rw [heq]
          congr 2
          omega
        · intro c' hc'
          rcases List.mem_cons.mp hc' with rfl | hmem
          · exact le_of_lt (lt_of_le_of_lt hcle hlt)
          · exact hmax c' hmem
        · intro j' c' hj' hget
          cases j' with
          | zero =>
            simp at hget
            subst hget
            exact lt_of_le_of_lt hcle hlt
          | succ j' =>
            simp at hget
            exact hfirst j' c' (by omega) hget

/-- The guarded loop either selects nothing (index -1, no contour of positive area) or
selects the first contour of largest area, which has positive area. -/
theorem selectMax_spec (area : Contour → ℚ) (cs : List Contour) :
    ((selectMax area cs) = Selection.init ∧ ∀ c ∈ cs, area c ≤ 0) ∨
    (∃ (j : Nat) (c : Contour), cs[j]? = some c ∧
      selectMax area cs = { maxContourSize := area c, maxContourIndex := (j : Int) } ∧
      0 < area c ∧
      (∀ c' ∈ cs, area c' ≤ area c) ∧
      (∀ (j' : Nat) (c' : Contour), j' < j → cs[j']? = some c' → area c' < area c)) := by
  unfold selectMax
  split_ifs with hlen
  · rcases selectFrom_spec area cs 0 Selection.init with h | ⟨j, c, hj, heq, hlt, hmax, hfirst⟩
    · left; exact h
    · right
      refine ⟨j, c, hj, ?_, hlt, hmax, hfirst⟩
      rw [heq]; simp
  · left
    have : cs = [] := by
      cases cs with
      | nil => rfl
      | cons _ _ => simp at hlen
    subst this
    simp

/-! ## Lemmas on `processFrame` -/

theorem mem_zipWith_elim {α β γ : Type} (f : α → β → γ) :
    ∀ (l₁ : List α) (l₂ : List β) (c : γ), c ∈ List.zipWith f l₁ l₂ →
      ∃ a ∈ l₁, ∃ b ∈ l₂, c = f a b
  | [], _, c, h => by simp at h
  | _ :: _, [], c, h => by simp at h
  | a :: l₁, b :: l₂, c, h => by
    rw [List.zipWith_cons_cons, List.mem_cons] at h
    rcases h with rfl | h
    · exact ⟨a, by simp, b, by simp, rfl⟩
    · obtain ⟨a', ha', b', hb', rfl⟩ := mem_zipWith_elim f l₁ l₂ c h
      exact ⟨a', List.mem_cons_of_mem _ ha', b', List.mem_cons_of_mem _ hb', rfl⟩

/-- Every sample of `zipPx f a b` is `f x y` for a sample `x` of `a` and a sample `y` of `b`. -/
theorem Mat.mem_zipPx (f : Nat → Nat → Nat) (a b : Mat) (row : List Nat) (hrow : row ∈ Mat.zipPx f a b)
    (v : Nat) (hv : v ∈ row) :
    ∃ ra ∈ a, ∃ x ∈ ra, ∃ rb ∈ b, ∃ y ∈ rb, v = f x y := by
  obtain ⟨ra, hra, rb, hrb, rfl⟩ := mem_zipWith_elim _ a b row hrow
  obtain ⟨x, hx, y, hy, rfl⟩ := mem_zipWith_elim _ ra rb v hv
  exact ⟨ra, hra, x, hx, rb, hrb, y, hy, rfl⟩

/-- The suppressed image is all zero as soon as every pair of a baseline sample and a
current sample is mapped to 0 by the per-sample pipeline. -/
theorem suppress_allZero_of_samples (base cur : Mat)
    (h : ∀ rb ∈ base, ∀ x ∈ rb, ∀ rc ∈ cur, ∀ y ∈ rc, pipelinePx x y = 0) :
    Mat.allZero (bandPass thresh_lower thresh_upper (scale 2 (absdiff base cur))) := by
  rw [bandPass_eq_mapPx, scale, Mat.mapPx_mapPx]
  apply Mat.allZero_mapPx
  intro row hrow v hv
  obtain ⟨ra, hra, x, hx, rb, hrb, y, hy, rfl⟩ := Mat.mem_zipPx _ _ _ row hrow v hv
  exact h ra hra x hx rb hrb y hy

theorem processFrame_app (cv : CvLib) (s : Application) :
    (processFrame cv s).app.m_base = baseline cv s ∧
    (processFrame cv s).app.initialized = true := by
  unfold processFrame
  by_cases h : Mat.sameSize (baseline cv s) (convertedFrame cv s) = true <;> simp [h]

theorem processFrame_of_sameSize (cv : CvLib) (s : Application)
    (h : Mat.sameSize (baseline cv s) (convertedFrame cv s) = true) :
    processFrame cv s =
      { app := { m_depthImage := brightenedDepth s
                 m_working := (touchStage cv (cv.findContours (suppressedFrame cv s)).1
                   (cv.findContours (suppressedFrame cv s)).2
                   (selectMax cv.contourArea
                     (cv.findContours (suppressedFrame cv s)).2).maxContourIndex).working
                 m_base := baseline cv s
                 m_outputImage := (touchStage cv (cv.findContours (suppressedFrame cv s)).1
                   (cv.findContours (suppressedFrame cv s)).2
                   (selectMax cv.contourArea
                     (cv.findContours (suppressedFrame cv s)).2).maxContourIndex).working
                 initialized := true }
        threw := false
        contours := (cv.findContours (suppressedFrame cv s)).2
        selection := selectMax cv.contourArea (cv.findContours (suppressedFrame cv s)).2
        fitted := (touchStage cv (cv.findContours (suppressedFrame cv s)).1
                   (cv.findContours (suppressedFrame cv s)).2
                   (selectMax cv.contourArea
                     (cv.findContours (suppressedFrame cv s)).2).maxContourIndex).fitted
        marker := (touchStage cv (cv.findContours (suppressedFrame cv s)).1
                   (cv.findContours (suppressedFrame cv s)).2
                   (selectMax cv.contourArea
                     (cv.findContours (suppressedFrame cv s)).2).maxContourIndex).marker } := by
  unfold processFrame
  simp [h]

theorem touchStage_none (cv : CvLib) (working : Mat) (contours : List Contour) :
    touchStage cv working contours (-1) = { working := working, fitted := none, marker := none } := by
  simp [touchStage]

/-- When the suppressed image is all zero and the library finds no contour in an all-zero
image, `processFrame` selects nothing, draws nothing and outputs an all-zero image. -/
theorem processFrame_of_allZero (cv : CvLib) (s : Application)
    (hfc : ∀ m : Mat, Mat.allZero m →
      Mat.allZero (cv.findContours m).1 ∧ (cv.findContours m).2 = [])
    (hsize : Mat.sameSize (baseline cv s) (convertedFrame cv s) = true)
    (hzero : Mat.allZero (suppressedFrame cv s)) :
    (processFrame cv s).threw = false ∧
    (processFrame cv s).contours = [] ∧
    (processFrame cv s).selection.maxContourIndex = -1 ∧
    (processFrame cv s).fitted = none ∧
    (processFrame cv s).marker = none ∧
    Mat.allZero (processFrame cv s).app.m_outputImage := by
  obtain ⟨himg, hcont⟩ := hfc _ hzero
  have hsel : selectMax cv.contourArea [] = Selection.init := by simp [selectMax]
  rw [processFrame_of_sameSize cv s hsize]
  simp only [hcont, hsel, Selection.init, touchStage_none]
  exact ⟨trivial, trivial, trivial, trivial, trivial, himg⟩

/-! ## The scenario frames and the small library instance -/

theorem discFrame_sample (rows cols : Nat) (cx cy : Int) (r v : Nat) :
    ∀ row ∈ discFrame rows cols cx cy r v, ∀ w ∈ row, w = v ∨ w = 0 := by
  intro row hrow w hw
  simp only [discFrame, List.mem_map] at hrow
  obtain ⟨y, _, rfl⟩ := hrow
  simp only [List.mem_map] at hw
  obtain ⟨x, _, rfl⟩ := hw
  split_ifs
  · exact Or.inl rfl
  · exact Or.inr rfl

theorem mapPx_discFrame (f : Nat → Nat) (hf : f 0 = 0) (rows cols : Nat) (cx cy : Int)
    (r v : Nat) :
    Mat.mapPx f (discFrame rows cols cx cy r v) = discFrame rows cols cx cy r (f v) := by
  simp only [Mat.mapPx, discFrame, List.map_map]
  apply List.map_congr_left
  intro y _
  simp only [Function.comp, List.map_map]
  apply List.map_congr_left
  intro x _
  simp only [Function.comp]
  split_ifs
  · rfl
  · exact hf

theorem sameSize_zeros_discFrame (rows cols : Nat) (cx cy : Int) (r v : Nat) :
    Mat.sameSize (Mat.zeros rows cols) (discFrame rows cols cx cy r v) = true := by
  simp [Mat.sameSize, Mat.zeros, discFrame, Function.comp_def]

theorem discFrame_centre (rows cols : Nat) (cx cy r v : Nat) (hy : cy < rows) (hx : cx < cols) :
    (discFrame rows cols cx cy r v)[cy]?.bind (fun row => row[cx]?) = some v := by
  simp [discFrame, List.getElem?_map, List.getElem?_range, hy, hx]

theorem rowPoints_zero (y : Nat) : ∀ (x : Nat) (row : List Nat), (∀ v ∈ row, v = 0) →
    rowPoints y x row = []
  | _, [], _ => rfl
  | x, v :: vs, h => by
    have hv : v = 0 := h v (by simp)
    subst hv
    simp only [rowPoints]
    simpa using rowPoints_zero y (x + 1) vs (fun w hw => h w (List.mem_cons_of_mem _ hw))

theorem matPoints_zero : ∀ (y : Nat) (m : Mat), Mat.allZero m → matPoints y m = []
  | _, [], _ => rfl
  | y, row :: rows, h => by
    simp only [matPoints]
    rw [rowPoints_zero y 0 row (h row (by simp)),
      matPoints_zero (y + 1) rows (fun r hr => h r (List.mem_cons_of_mem _ hr))]
    rfl

theorem sampleCv_findContours_zero (m : Mat) (h : Mat.allZero m) :
    Mat.allZero (sampleCv.findContours m).1 ∧ (sampleCv.findContours m).2 = [] := by
  simp [sampleCv, nonZeroPoints, matPoints_zero 0 m h, h]

theorem touchStage_of_get (cv : CvLib) (working : Mat) (contours : List Contour) (k : Nat)
    (c : Contour) (h : contours[k]? = some c) :
    touchStage cv working contours (k : Int) =
      if c.length > 100 then
        { working := cv.circle working (cv.fitEllipse c).center 20
          fitted := some c
          marker := some (cv.fitEllipse c).center }
      else { working := working, fitted := none, marker := none } := by
  simp [touchStage, h]

theorem baseline_of_initialized (cv : CvLib) (s : Application) (h : s.initialized = true) :
    baseline cv s = s.m_base := by
  simp [baseline, h]

theorem baseline_of_not_initialized (cv : CvLib) (s : Application) (h : s.initialized = false) :
    baseline cv s = convertedFrame cv s := by
  simp [baseline, h]

/-- Once `initialized` is set, any further run keeps it set and keeps the baseline. -/
theorem run_calibrated (cv : CvLib) : ∀ (frames : List Mat) (s : Application),
    s.initialized = true →
    (run cv s frames).initialized = true ∧ (run cv s frames).m_base = s.m_base
  | [], s, h => by simp [run, h]
  | frame :: frames, s, h => by
    have hstep := processFrame_app cv { s with m_depthImage := frame }
    rw [baseline_of_initialized cv _ (by simpa using h)] at hstep
    simp only [run, Application.loop]
    split_ifs
    · exact ⟨hstep.2, hstep.1⟩
    · have hrest := run_calibrated cv frames (processFrame cv { s with m_depthImage := frame }).app
        hstep.2
      exact ⟨hrest.1, hrest.2.trans hstep.1⟩

/-! ## The selection loop (C1, C2) -/

/-- C1: for every sequence of regions in which at least one region has positive area, the
selection loop of `processFrame` ends with `maxContourIndex` equal to the smallest index
whose area is the maximum area of the sequence (no area is larger, every earlier area is
strictly smaller), and `maxContourSize` equal to that area. -/
theorem selectMax_first_largest (area : Contour → ℚ) (contours : List Contour)
    (hpos : ∃ c ∈ contours, 0 < area c) :
    ∃ (k : Nat) (c : Contour), contours[k]? = some c ∧
      (selectMax area contours).maxContourIndex = (k : Int) ∧
      (selectMax area contours).maxContourSize = area c ∧
      (∀ c' ∈ contours, area c' ≤ area c) ∧
      (∀ (j : Nat) (c' : Contour), j < k → contours[j]? = some c' → area c' < area c) := by
  rcases selectMax_spec area contours with ⟨_, hle⟩ | ⟨k, c, hk, heq, _, hmax, hfirst⟩
  · obtain ⟨c, hc, hlt⟩ := hpos
    exact absurd (hle c hc) (not_le.mpr hlt)
  · exact ⟨k, c, hk, by rw [heq], by rw [heq], hmax, hfirst⟩

/-- Three regions of areas 0, 2 and 2: the loop selects index 1, the first of the two
largest. -/
theorem selectMax_first_largest_witness :
    (selectMax polygonArea
      [[⟨0, 0⟩], [⟨0, 0⟩, ⟨2, 0⟩, ⟨2, 2⟩], [⟨0, 0⟩, ⟨2, 0⟩, ⟨0, 2⟩]]).maxContourIndex = 1 ∧
    ∃ (k : Nat) (c : Contour),
      [[⟨0, 0⟩], [⟨0, 0⟩, ⟨2, 0⟩, ⟨2, 2⟩], [⟨0, 0⟩, ⟨2, 0⟩, ⟨0, 2⟩]][k]? = some c ∧
      (selectMax polygonArea
        [[⟨0, 0⟩], [⟨0, 0⟩, ⟨2, 0⟩, ⟨2, 2⟩], [⟨0, 0⟩, ⟨2, 0⟩, ⟨0, 2⟩]]).maxContourIndex
          = (k : Int) ∧
      (selectMax polygonArea
        [[⟨0, 0⟩], [⟨0, 0⟩, ⟨2, 0⟩, ⟨2, 2⟩], [⟨0, 0⟩, ⟨2, 0⟩, ⟨0, 2⟩]]).maxContourSize
          = polygonArea c ∧
      (∀ c' ∈ ([[⟨0, 0⟩], [⟨0, 0⟩, ⟨2, 0⟩, ⟨2, 2⟩], [⟨0, 0⟩, ⟨2, 0⟩, ⟨0, 2⟩]] : List Contour),
        polygonArea c' ≤ polygonArea c) ∧
      (∀ (j : Nat) (c' : Contour), j < k →
        [[⟨0, 0⟩], [⟨0, 0⟩, ⟨2, 0⟩, ⟨2, 2⟩], [⟨0, 0⟩, ⟨2, 0⟩, ⟨0, 2⟩]][j]? = some c' →
        polygonArea c' < polygonArea c) :=
  ⟨by simp [selectMax, selectFrom, selectStep, polygonArea, crossSum, Selection.init],
   selectMax_first_largest polygonArea
    [[⟨0, 0⟩], [⟨0, 0⟩, ⟨2, 0⟩, ⟨2, 2⟩], [⟨0, 0⟩, ⟨2, 0⟩, ⟨0, 2⟩]]
    ⟨[⟨0, 0⟩, ⟨2, 0⟩, ⟨2, 2⟩], by simp, by simp [polygonArea, crossSum]⟩⟩

/-- C2, as stated, fails: a sequence of exactly one region of area 0 (here the one-point
contour of an isolated sample) leaves `maxContourIndex` at -1, not 0. -/
theorem selectMax_single_zero_area :
    polygonArea [⟨3, 4⟩] = 0 ∧
    (selectMax polygonArea [[⟨3, 4⟩]]).maxContourIndex = -1 ∧
    (selectMax polygonArea [[⟨3, 4⟩]]).maxContourIndex ≠ 0 := by
  refine ⟨?_, ?_, ?_⟩ <;>
    simp [selectMax, selectFrom, selectStep, polygonArea, crossSum, Selection.init]

/-- C2, amended: for the empty sequence `maxContourIndex` stays -1; for a sequence of
exactly one region it is 0 when the region has positive area and stays -1 otherwise. -/
theorem selectMax_empty_and_single (area : Contour → ℚ) (c : Contour) :
    (selectMax area []).maxContourIndex = -1 ∧
    (selectMax area [c]).maxContourIndex = if 0 < area c then 0 else -1 := by
  constructor
  · simp [selectMax, Selection.init]
  · simp only [selectMax, selectFrom, selectStep, Selection.init]
    split_ifs <;> simp_all

/-! ## The thresholds (C3, C8) -/

/-- C3, as stated, fails at the lower bound itself: the sample 10 lies in `10..50`, is
neither above `upperBound` nor below `lowerBound`, and yet the two thresholds output 0. -/
theorem bandPx_at_lower_bound :
    bandPx thresh_lower thresh_upper 10 = 0 ∧
    bandPx thresh_lower thresh_upper 10 ≠ 10 ∧
    ¬ ((50 : Nat) < 10 ∨ (10 : Nat) < 10) := by
  decide

/-- C3, amended: the two thresholds at 50 and 10 output 0 exactly when the sample is above
50 or not above 10, and output the sample unchanged for every other value, that is for
every `v` with `10 < v ≤ 50`. -/
theorem bandPx_default (v : Nat) :
    (bandPx thresh_lower thresh_upper v = 0 ↔ (50 < v ∨ v ≤ 10)) ∧
    ((10 < v ∧ v ≤ 50) → bandPx thresh_lower thresh_upper v = v) := by
  unfold bandPx threshToZeroPx threshToZeroInvPx thresh_lower thresh_upper
  constructor
  · split_ifs <;> omega
  · intro h
    split_ifs <;> omega

/-- C8: for every image and every pair of bounds, applying the upper cut (type 4) then the
lower cut (type 3) a second time leaves the image as the first application produced it. -/
theorem bandPass_idempotent (lower upper : Int) (m : Mat) :
    bandPass lower upper (bandPass lower upper m) = bandPass lower upper m := by
  rw [bandPass_eq_mapPx, bandPass_eq_mapPx, Mat.mapPx_mapPx]
  simp only [bandPx_idem]

/-! ## Subtraction and gain (C5, C10) -/

/-- C5: for every current sample `c` and baseline sample `b`, `absdiff` followed by `*= 2`
yields `min 255 (2 * |c - b|)`; the result is at most 255. -/
theorem subtract_gain_saturates (c b : Nat) :
    scalePx 2 (absdiffPx b c) = min 255 (2 * Int.natAbs ((c : Int) - (b : Int))) ∧
    scalePx 2 (absdiffPx b c) ≤ 255 := by
  unfold scalePx absdiffPx saturateU8
  constructor <;> split_ifs <;> omega

/-- C10: for every current sample `c` and baseline sample `b`, the sample produced by
`absdiff`, `*= 2`, threshold type 4 at 50 and threshold type 3 at 10 is non-zero exactly
when `6 ≤ |c - b| ≤ 25`; it then equals `2 * |c - b|`, so it is even and lies in `12..50`. -/
theorem pipelinePx_survivors (c b : Nat) :
    (pipelinePx b c ≠ 0 ↔
      (6 ≤ Int.natAbs ((c : Int) - (b : Int)) ∧ Int.natAbs ((c : Int) - (b : Int)) ≤ 25)) ∧
    (pipelinePx b c ≠ 0 → pipelinePx b c = 2 * Int.natAbs ((c : Int) - (b : Int))) ∧
    (pipelinePx b c ≠ 0 →
      pipelinePx b c % 2 = 0 ∧ 12 ≤ pipelinePx b c ∧ pipelinePx b c ≤ 50) := by
  unfold pipelinePx bandPx threshToZeroPx threshToZeroInvPx thresh_lower thresh_upper
    scalePx absdiffPx saturateU8
  refine ⟨?_, ?_, ?_⟩ <;> split_ifs <;> omega

/-! ## Touch estimation (C4) -/

/-- C4: whenever `processFrame` has selected a dominant region (the contour `c` at index
`maxContourIndex`), it calls `cv::fitEllipse` and draws the marker if and only if `c` has
more than 100 points.  With more than 100 points the contour fitted is `c`, the marker is
the circle of radius 20 around the centre of the ellipse fitted to `c`, and the working
and output images are the image left by `cv::findContours` with that circle drawn.  With
100 points or fewer nothing is fitted, nothing is drawn, and the working and output images
are the image left by `cv::findContours`, untouched.  The contour handed to
`cv::fitEllipse` never has fewer than 5 points. -/
theorem processFrame_touch_iff (cv : CvLib) (s : Application) (k : Nat) (c : Contour)
    (hk : (processFrame cv s).selection.maxContourIndex = (k : Int))
    (hc : (processFrame cv s).contours[k]? = some c) :
    ((processFrame cv s).fitted.isSome ↔ 100 < c.length) ∧
    ((processFrame cv s).marker.isSome ↔ 100 < c.length) ∧
    (100 < c.length →
      (processFrame cv s).fitted = some c ∧
      (processFrame cv s).marker = some (cv.fitEllipse c).center ∧
      (processFrame cv s).app.m_working =
        cv.circle (cv.findContours (suppressedFrame cv s)).1 (cv.fitEllipse c).center 20 ∧
      (processFrame cv s).app.m_outputImage =
        cv.circle (cv.findContours (suppressedFrame cv s)).1 (cv.fitEllipse c).center 20) ∧
    (c.length ≤ 100 →
      (processFrame cv s).fitted = none ∧
      (processFrame cv s).marker = none ∧
      (processFrame cv s).app.m_working = (cv.findContours (suppressedFrame cv s)).1 ∧
      (processFrame cv s).app.m_outputImage = (cv.findContours (suppressedFrame cv s)).1) ∧
    (∀ c', (processFrame cv s).fitted = some c' → c' = c ∧ 5 ≤ c'.length) := by
  by_cases hsize : Mat.sameSize (baseline cv s) (convertedFrame cv s) = true
  · rw [processFrame_of_sameSize cv s hsize] at hk hc ⊢
    simp only at hk hc ⊢
    rw [hk, touchStage_of_get cv _ _ k c hc]
    by_cases hlen : c.length > 100
    · rw [if_pos hlen]
      refine ⟨by simpa using hlen, by simpa using hlen, fun _ => ⟨rfl, rfl, rfl, rfl⟩,
        fun h => absurd hlen (not_lt.mpr h), ?_⟩
      intro c' hc'
      simp only [Option.some.injEq] at hc'
      subst hc'
      exact ⟨rfl, by omega⟩
    · rw [if_neg hlen]
      refine ⟨by simpa using hlen, by simpa using hlen, fun h => absurd h hlen,
        fun _ => ⟨rfl, rfl, rfl, rfl⟩, ?_⟩
      intro c' hc'
      simp at hc'
  · have hthrew : (processFrame cv s).contours = [] := by
      unfold processFrame
      simp [hsize]
    rw [hthrew] at hc
    simp at hc

/-! ## Frames equal to the baseline (C6) -/

/-- C6: when `initialized` is not set (the frame is stored as the baseline first) or the
converted frame equals the stored baseline, and the library reports no contour in an
all-zero image and leaves it all zero, `processFrame` completes with an all-zero suppressed
image, no contour, no selection (`maxContourIndex = -1`), no ellipse fit, no marker and an
all-zero output image; in the first case the baseline kept is the converted frame. -/
theorem processFrame_on_baseline (cv : CvLib) (s : Application)
    (hfc : ∀ m : Mat, Mat.allZero m →
      Mat.allZero (cv.findContours m).1 ∧ (cv.findContours m).2 = [])
    (h : s.initialized = false ∨ convertedFrame cv s = s.m_base) :
    Mat.allZero (suppressedFrame cv s) ∧
    (processFrame cv s).threw = false ∧
    (processFrame cv s).contours = [] ∧
    (processFrame cv s).selection.maxContourIndex = -1 ∧
    (processFrame cv s).fitted = none ∧
    (processFrame cv s).marker = none ∧
    Mat.allZero (processFrame cv s).app.m_outputImage ∧
    (processFrame cv s).app.m_base = convertedFrame cv s := by
  have hbase : baseline cv s = convertedFrame cv s := by
    rcases h with h | h
    · exact baseline_of_not_initialized cv s h
    · unfold baseline
      split_ifs
      · rfl
      · exact h.symm
  have hsize : Mat.sameSize (baseline cv s) (convertedFrame cv s) = true := by
    rw [hbase]; exact Mat.sameSize_self _
  have hzero : Mat.allZero (suppressedFrame cv s) := by
    unfold suppressedFrame
    rw [hbase]
    exact suppress_allZero _ (absdiff_self_allZero _)
  obtain ⟨h1, h2, h3, h4, h5, h6⟩ := processFrame_of_allZero cv s hfc hsize hzero
  exact ⟨hzero, h1, h2, h3, h4, h5, h6, (processFrame_app cv s).1.trans hbase⟩

/-- The first frame after construction, with the small library instance. -/
theorem processFrame_on_baseline_witness :
    Mat.allZero (suppressedFrame sampleCv (Application.ctor [[100, 2000], [7, 0]] [])) ∧
    (processFrame sampleCv (Application.ctor [[100, 2000], [7, 0]] [])).threw = false ∧
    (processFrame sampleCv (Application.ctor [[100, 2000], [7, 0]] [])).contours = [] ∧
    (processFrame sampleCv
      (Application.ctor [[100, 2000], [7, 0]] [])).selection.maxContourIndex = -1 ∧
    (processFrame sampleCv (Application.ctor [[100, 2000], [7, 0]] [])).fitted = none ∧
    (processFrame sampleCv (Application.ctor [[100, 2000], [7, 0]] [])).marker = none ∧
    Mat.allZero (processFrame sampleCv
      (Application.ctor [[100, 2000], [7, 0]] [])).app.m_outputImage ∧
    (processFrame sampleCv (Application.ctor [[100, 2000], [7, 0]] [])).app.m_base =
      convertedFrame sampleCv (Application.ctor [[100, 2000], [7, 0]] []) :=
  processFrame_on_baseline sampleCv (Application.ctor [[100, 2000], [7, 0]] [])
    sampleCv_findContours_zero (Or.inl rfl)

/-! ## The disc of intensity 30 (C7) -/

/-- C7, as stated, fails: on the 480 x 640 frame that is 30 on the disc of radius 50 around
(320, 240) and 0 elsewhere, against the all-zero baseline, the disc is not empty (its centre
sample is 30) and yet every sample is 0 after subtraction, gain and the two thresholds:
30 is doubled to 60, which the upper cut at 50 zeroes. -/
theorem disc30_is_suppressed :
    (discFrame 480 640 320 240 50 30)[240]?.bind (fun row => row[320]?) = some 30 ∧
    pipelinePx 0 30 = 0 ∧
    Mat.allZero (bandPass thresh_lower thresh_upper
      (scale 2 (absdiff (Mat.zeros 480 640) (discFrame 480 640 320 240 50 30)))) := by
  refine ⟨?_, by decide, ?_⟩
  · have h := discFrame_centre 480 640 320 240 50 30 (by decide) (by decide)
    simpa using h
  · apply suppress_allZero_of_samples
    intro rb hrb x hx rc hrc y hy
    rw [Mat.allZero_zeros 480 640 rb hrb x hx]
    rcases discFrame_sample _ _ _ _ _ _ rc hrc y hy with rfl | rfl <;> decide

/-- C7, amended: for a frame whose converted 8-bit intensity is 30 on a filled disc of
radius 50 and 0 elsewhere, processed against an all-zero baseline of the same size, every
sample is 0 after subtraction, gain and the two thresholds; with a library that reports no
contour in an all-zero image, no region is selected, no ellipse is fitted, no marker is
drawn and the output image is all zero. -/
theorem processFrame_disc30 (cv : CvLib) (s : Application) (rows cols : Nat) (cx cy : Int)
    (hfc : ∀ m : Mat, Mat.allZero m →
      Mat.allZero (cv.findContours m).1 ∧ (cv.findContours m).2 = [])
    (hinit : s.initialized = true)
    (hbase : s.m_base = Mat.zeros rows cols)
    (hcur : convertedFrame cv s = discFrame rows cols cx cy 50 30) :
    Mat.allZero (suppressedFrame cv s) ∧
    (processFrame cv s).threw = false ∧
    (processFrame cv s).contours = [] ∧
    (processFrame cv s).selection.maxContourIndex = -1 ∧
    (processFrame cv s).fitted = none ∧
    (processFrame cv s).marker = none ∧
    Mat.allZero (processFrame cv s).app.m_outputImage := by
  have hb : baseline cv s = Mat.zeros rows cols := by
    rw [baseline_of_initialized cv s hinit, hbase]
  have hsize : Mat.sameSize (baseline cv s) (convertedFrame cv s) = true := by
    rw [hb, hcur]; exact sameSize_zeros_discFrame _ _ _ _ _ _
  have hzero : Mat.allZero (suppressedFrame cv s) := by
    unfold suppressedFrame
    rw [hb, hcur]
    apply suppress_allZero_of_samples
    intro rb hrb x hx rc hrc y hy
    rw [Mat.allZero_zeros rows cols rb hrb x hx]
    rcases discFrame_sample _ _ _ _ _ _ rc hrc y hy with rfl | rfl <;> decide
  exact ⟨hzero, processFrame_of_allZero cv s hfc hsize hzero⟩

/-! ## Calibration (C9) -/

/-- C9: in every state in which `initialized` is set, `processFrame` leaves `initialized`
set and `m_base` unchanged; and after `loop` has run over one or more frames from the
constructor's state, `initialized` is set and `m_base` is the converted intensity frame of
the first frame. -/
theorem calibrated_is_absorbing (cv : CvLib) (s : Application) (hinit : s.initialized = true)
    (depthBuffer outputBuffer frame : Mat) (frames : List Mat) :
    ((processFrame cv s).app.initialized = true ∧ (processFrame cv s).app.m_base = s.m_base) ∧
    ((run cv (Application.ctor depthBuffer outputBuffer) (frame :: frames)).initialized = true ∧
     (run cv (Application.ctor depthBuffer outputBuffer) (frame :: frames)).m_base =
       Mat.mapPx cv.convertTo8U (Mat.mapPx (scalePx16 32) frame)) := by
  constructor
  · have h := processFrame_app cv s
    rw [baseline_of_initialized cv s hinit] at h
    exact ⟨h.2, h.1⟩
  · have hstep := processFrame_app cv
      { Application.ctor depthBuffer outputBuffer with m_depthImage := frame }
    rw [baseline_of_not_initialized cv _ rfl] at hstep
    have hconv : convertedFrame cv
        { Application.ctor depthBuffer outputBuffer with m_depthImage := frame } =
        Mat.mapPx cv.convertTo8U (Mat.mapPx (scalePx16 32) frame) := rfl
    rw [hconv] at hstep
    simp only [run, Application.loop]
    split_ifs
    · exact ⟨hstep.2, hstep.1⟩
    · have hrest := run_calibrated cv frames _ hstep.2
      exact ⟨hrest.1, hrest.2.trans hstep.1⟩

/-! ## Concrete runs with the small library instance -/

theorem selectMax_single_pos (area : Contour → ℚ) (c : Contour) (h : 0 < area c) :
    selectMax area [c] = { maxContourSize := area c, maxContourIndex := 0 } := by
  simp [selectMax, selectFrom, selectStep, Selection.init, h]

theorem polygonArea_pos (c : Contour) (last : Point) (hlast : c.getLast? = some last)
    (hne : crossSum last c ≠ 0) : 0 < polygonArea c := by
  simp only [polygonArea, hlast]
  have : 0 < Int.natAbs (crossSum last c) := Int.natAbs_pos.mpr hne
  positivity

set_option maxRecDepth 100000 in
theorem sameSize_footSample :
    Mat.sameSize (baseline sampleCv footSample) (convertedFrame sampleCv footSample) = true := by
  decide

set_option maxRecDepth 100000 in
theorem contours_footSample :
    (sampleCv.findContours (suppressedFrame sampleCv footSample)).2 = [footContour] := by
  decide

set_option maxRecDepth 100000 in
theorem footContour_area : 0 < polygonArea footContour :=
  polygonArea_pos footContour ⟨0, 1⟩ (by decide) (by decide)

set_option maxRecDepth 100000 in
theorem footContour_length : footContour.length = 102 := by
  decide

theorem footSample_selection :
    (processFrame sampleCv footSample).selection.maxContourIndex = ((0 : Nat) : Int) := by
  rw [processFrame_of_sameSize _ _ sameSize_footSample]
  simp only [contours_footSample]
  show (selectMax polygonArea [footContour]).maxContourIndex = _
  rw [selectMax_single_pos _ _ footContour_area]
  rfl

theorem footSample_contours :
    (processFrame sampleCv footSample).contours[0]? = some footContour := by
  rw [processFrame_of_sameSize _ _ sameSize_footSample]
  simp only [contours_footSample]
  rfl

theorem discSample_converted :
    convertedFrame sampleCv discSample = discFrame 480 640 320 240 50 30 := by
  show Mat.mapPx sampleCv.convertTo8U
    (Mat.mapPx (scalePx16 32) (discFrame 480 640 320 240 50 157)) = _
  rw [mapPx_discFrame _ (by decide), mapPx_discFrame _ (by decide)]
  have hv : sampleCv.convertTo8U (scalePx16 32 157) = 30 := by decide
  rw [hv]

/-- At the boundary of line 121: a selected contour of exactly 100 points is not fitted
and the image is left as it is; one of 101 points is fitted and the circle of radius 20 is
drawn around the fitted centre. -/
theorem touchStage_boundary (cv : CvLib) (working : Mat) :
    (touchStage cv working [List.replicate 100 ⟨0, 0⟩] 0).marker = none ∧
    (touchStage cv working [List.replicate 100 ⟨0, 0⟩] 0).fitted = none ∧
    (touchStage cv working [List.replicate 100 ⟨0, 0⟩] 0).working = working ∧
    (touchStage cv working [List.replicate 101 ⟨0, 0⟩] 0).fitted =
      some (List.replicate 101 ⟨0, 0⟩) ∧
    (touchStage cv working [List.replicate 101 ⟨0, 0⟩] 0).marker =
      some (cv.fitEllipse (List.replicate 101 ⟨0, 0⟩)).center ∧
    (touchStage cv working [List.replicate 101 ⟨0, 0⟩] 0).working =
      cv.circle working (cv.fitEllipse (List.replicate 101 ⟨0, 0⟩)).center 20 := by
  simp [touchStage]

set_option maxRecDepth 100000 in
theorem footSample_marked :
    sampleCv.circle (sampleCv.findContours (suppressedFrame sampleCv footSample)).1
      (sampleCv.fitEllipse footContour).center 20 =
      [100 :: List.replicate 100 30, 30 :: List.replicate 100 0] := by
  decide

/-- A frame with a region of 102 boundary points: the ellipse is fitted and the marker is
drawn into the output image (the sample 100 at the fitted centre). -/
theorem processFrame_touch_iff_witness :
    (processFrame sampleCv footSample).app.m_outputImage =
      [100 :: List.replicate 100 30, 30 :: List.replicate 100 0] ∧
    ((processFrame sampleCv footSample).fitted.isSome ↔ 100 < footContour.length) ∧
    ((processFrame sampleCv footSample).marker.isSome ↔ 100 < footContour.length) ∧
    (100 < footContour.length →
      (processFrame sampleCv footSample).fitted = some footContour ∧
      (processFrame sampleCv footSample).marker = some (sampleCv.fitEllipse footContour).center ∧
      (processFrame sampleCv footSample).app.m_working =
        sampleCv.circle (sampleCv.findContours (suppressedFrame sampleCv footSample)).1
          (sampleCv.fitEllipse footContour).center 20 ∧
      (processFrame sampleCv footSample).app.m_outputImage =
        sampleCv.circle (sampleCv.findContours (suppressedFrame sampleCv footSample)).1
          (sampleCv.fitEllipse footContour).center 20) ∧
    (footContour.length ≤ 100 →
      (processFrame sampleCv footSample).fitted = none ∧
      (processFrame sampleCv footSample).marker = none ∧
      (processFrame sampleCv footSample).app.m_working =
        (sampleCv.findContours (suppressedFrame sampleCv footSample)).1 ∧
      (processFrame sampleCv footSample).app.m_outputImage =
        (sampleCv.findContours (suppressedFrame sampleCv footSample)).1) ∧
    (∀ c', (processFrame sampleCv footSample).fitted = some c' →
      c' = footContour ∧ 5 ≤ c'.length) :=
  ⟨((processFrame_touch_iff sampleCv footSample 0 footContour footSample_selection
      footSample_contours).2.2.1 (by rw [footContour_length]; decide)).2.2.2.trans
      footSample_marked,
   processFrame_touch_iff sampleCv footSample 0 footContour footSample_selection
    footSample_contours⟩

/-- The disc of intensity 30 on the 480 x 640 frame, with the small library instance. -/
theorem processFrame_disc30_witness :
    Mat.allZero (suppressedFrame sampleCv discSample) ∧
    (processFrame sampleCv discSample).threw = false ∧
    (processFrame sampleCv discSample).contours = [] ∧
    (processFrame sampleCv discSample).selection.maxContourIndex = -1 ∧
    (processFrame sampleCv discSample).fitted = none ∧
    (processFrame sampleCv discSample).marker = none ∧
    Mat.allZero (processFrame sampleCv discSample).app.m_outputImage :=
  processFrame_disc30 sampleCv discSample 480 640 320 240 sampleCv_findContours_zero rfl rfl
    discSample_converted

/-- A calibrated state keeps its baseline, and two frames after construction leave the
converted first frame as the baseline. -/
theorem calibrated_is_absorbing_witness :
    ((processFrame sampleCv calibratedSample).app.initialized = true ∧
      (processFrame sampleCv calibratedSample).app.m_base = calibratedSample.m_base) ∧
    ((run sampleCv (Application.ctor [] []) ([[100]] :: [[[7]]])).initialized = true ∧
     (run sampleCv (Application.ctor [] []) ([[100]] :: [[[7]]])).m_base =
       Mat.mapPx sampleCv.convertTo8U (Mat.mapPx (scalePx16 32) [[100]])) :=
  calibrated_is_absorbing sampleCv calibratedSample rfl [] [] [[100]] [[[7]]]

end FootTouchpad
